import Mathlib

/-!
# Verification of the TradeSimulator decision engine

A shallow embedding, in Lean 4, of the core of the TradeSimulator trading
bot: the technical-indicator library (`utils.js`), the resilient fetch
wrapper (`api.js`), the entry strategy and watchlist builder
(`strategy.js`), and the trade-cycle scheduler skeleton (`app.js`).

JavaScript numbers are idealised as rationals (`ℚ`).  Where IEEE-754
non-finite values are essential to the control flow (the unguarded
division in `executeTrade`), numbers are modelled by `JsNum`, a rational
extended with `+Infinity`, `-Infinity` and `NaN`, with JavaScript's
division, floor and comparison semantics on the cases that can arise.
`Number.prototype.toFixed(2)` is idealised as rounding to the nearest
cent (ties away from plain truncation follow Lean's `round`, i.e. half
up; every concrete value used below is far from a tie).
-/

namespace TradeSim

/-! ## Indicator library (`utils.js`) -/

/-- Consecutive differences `prices[i] - prices[i-1]` for `i = 1 ..`,
as consumed by `calculateRSI`. -/
def diffs : List ℚ → List ℚ
  | a :: b :: rest => (b - a) :: diffs (b :: rest)
  | _ => []

/-- The seeding loop of `calculateRSI`: accumulate `(gains, losses)`
over the first `period` differences (`gains += diff` when `diff >= 0`,
else `losses -= diff`). -/
def seedGainsLosses (ds : List ℚ) : ℚ × ℚ :=
  ds.foldl (fun gl d => if 0 ≤ d then (gl.1 + d, gl.2) else (gl.1, gl.2 - d)) (0, 0)

/-- One iteration of the Wilder smoothing loop of `calculateRSI`. -/
def wilderStep (period : ℕ) (gl : ℚ × ℚ) (d : ℚ) : ℚ × ℚ :=
  if 0 ≤ d then
    ((gl.1 * ((period : ℚ) - 1) + d) / period, gl.2 * ((period : ℚ) - 1) / period)
  else
    (gl.1 * ((period : ℚ) - 1) / period, (gl.2 * ((period : ℚ) - 1) - d) / period)

/-- The smoothed `(avgGain, avgLoss)` pair computed by `calculateRSI`
just before its final division. -/
def rsiAvgs (prices : List ℚ) (period : ℕ) : ℚ × ℚ :=
  let ds := diffs prices
  let seed := seedGainsLosses (ds.take period)
  (ds.drop period).foldl (wilderStep period) (seed.1 / period, seed.2 / period)

/-- Function `calculateRSI` from `utils.js` (the source's default `period` is 14). -/
def calculateRSI (prices : List ℚ) (period : ℕ) : ℚ :=
  if prices.length < period + 1 then 50
  else
    let a := rsiAvgs prices period
    if a.2 = 0 then 100
    else 100 - 100 / (1 + a.1 / a.2)

/-- A market bar as consumed by `calculateATR` (`h` = high, `l` = low,
`c` = close). -/
structure Bar where
  h : ℚ
  l : ℚ
  c : ℚ
deriving DecidableEq

/-- The true ranges computed by `calculateATR`, one per bar from index 1:
`max(high - low, |high - prevClose|, |low - prevClose|)`. -/
def trueRanges : List Bar → List ℚ
  | a :: b :: rest => max (b.h - b.l) (max |b.h - a.c| |b.l - a.c|) :: trueRanges (b :: rest)
  | _ => []

/-- Function `calculateATR` from `utils.js`: 0 on fewer than `period` bars, else
the sum of `trueRanges.slice(-period)` divided by `period`
(`slice(-n)` keeps the last `n` elements, or all of them when fewer
exist). -/
def calculateATR (bars : List Bar) (period : ℕ) : ℚ :=
  if bars.length < period then 0
  else
    let tr := trueRanges bars
    (tr.drop (tr.length - period)).sum / period

/-- Helper `calculateEMA` from `utils.js`: seeded at the first data point, then
`ema[i] = data[i]*k + ema[i-1]*(1-k)` with `k = 2/(period+1)`. -/
def emaFrom (k : ℚ) (prev : ℚ) : List ℚ → List ℚ
  | [] => []
  | x :: xs =>
    let e := x * k + prev * (1 - k)
    e :: emaFrom k e xs

/-- The full EMA series (same length as the input). -/
def calculateEMA (data : List ℚ) (period : ℕ) : List ℚ :=
  match data with
  | [] => []
  | d0 :: rest => d0 :: emaFrom (2 / ((period : ℚ) + 1)) d0 rest

/-- The MACD line exactly as built by the loop in `calculateMACD`: for
`i` from `longPeriod - 1` to `prices.length - 1` it pushes
`shortEMA[i - (longPeriod - shortPeriod)] - longEMA[i]` (note the short
EMA is read `longPeriod - shortPeriod` indices earlier than the long
EMA). -/
def macdLineCode (prices : List ℚ) (shortPeriod longPeriod : ℕ) : List ℚ :=
  let shortEMA := calculateEMA prices shortPeriod
  let longEMA := calculateEMA prices longPeriod
  (List.range' (longPeriod - 1) (prices.length - (longPeriod - 1))).map
    (fun i => shortEMA.getD (i - (longPeriod - shortPeriod)) 0 - longEMA.getD i 0)

/-- The `{macd, signal, histogram}` record returned by `calculateMACD`. -/
structure MacdValue where
  macd : ℚ
  signal : ℚ
  histogram : ℚ
deriving DecidableEq

/-- Function `calculateMACD` from `utils.js` (source defaults: 12, 26, 9). -/
def calculateMACD (prices : List ℚ) (shortPeriod longPeriod signalPeriod : ℕ) : MacdValue :=
  if prices.length < longPeriod then ⟨0, 0, 0⟩
  else
    let macdLine := macdLineCode prices shortPeriod longPeriod
    if macdLine.length < signalPeriod then ⟨0, 0, 0⟩
    else
      let signalLine := calculateEMA macdLine signalPeriod
      let macd := macdLine.getLast?.getD 0
      let signal := signalLine.getLast?.getD 0
      ⟨macd, signal, macd - signal⟩

/-- Modelled from the spec's words, for comparison with the source: the
MACD line as "EMA(12) minus EMA(26) of the same price series at the
same points", i.e. the pointwise difference of the two EMA series. -/
def macdLineSamePoints (prices : List ℚ) (shortPeriod longPeriod : ℕ) : List ℚ :=
  List.zipWith (· - ·) (calculateEMA prices shortPeriod) (calculateEMA prices longPeriod)

/-! ## Resilient fetch wrapper (`api.js`, `fetchWithBackoff`)

Each attempt of `fetchWithBackoff` either receives an HTTP response with
some status code or hits a network error (the `fetch` promise rejects).
`outcomes i` is the outcome of the `i`-th attempt.  The function returns
the surfaced result together with the list of backoff delays it slept,
in order. -/

/-- What one `fetch` attempt produces. -/
inductive FetchOutcome where
  | resp (status : ℕ)
  | netErr
deriving DecidableEq

/-- What `fetchWithBackoff` surfaces to its caller: a successful
response (2xx), the distinguished `AuthError` (401), an
`API Error (status)` rethrown after the retry budget is spent, or the
last network error. -/
inductive FetchResult where
  | success (status : ℕ)
  | authFailure
  | apiError (status : ℕ)
  | netFailure
deriving DecidableEq

/-- Function `fetchWithBackoff(url, options, retries, delay)` from `api.js`.

Control flow of the source: a non-ok response that is a 401 throws
`AuthError`, which the function's own `catch` rethrows immediately; a
429 with retries left sleeps `delay` and recurses with
`retries - 1, delay * 2`; any other non-ok response throws a generic
`Error (API Error (status))`, which the `catch` — it is not an
`AuthError` — retries on while retries remain, on the same doubling
schedule, and rethrows once the budget is spent; a rejected `fetch`
(network error) is likewise retried while retries remain.  (A 429 with
retries left and any other non-2xx/non-401 status with retries left
therefore behave identically, so the two branches are merged here; with
no retries left both end in the rethrown `API Error (status)`.) -/
def fetchWithBackoff (outcomes : ℕ → FetchOutcome) (i retries delay : ℕ) :
    FetchResult × List ℕ :=
  match outcomes i, retries with
  | .resp status, 0 =>
    if 200 ≤ status ∧ status < 300 then (.success status, [])
    else if status = 401 then (.authFailure, [])
    else (.apiError status, [])
  | .resp status, r + 1 =>
    if 200 ≤ status ∧ status < 300 then (.success status, [])
    else if status = 401 then (.authFailure, [])
    else
      let next := fetchWithBackoff outcomes (i + 1) r (delay * 2)
      (next.1, delay :: next.2)
  | .netErr, 0 => (.netFailure, [])
  | .netErr, r + 1 =>
    let next := fetchWithBackoff outcomes (i + 1) r (delay * 2)
    (next.1, delay :: next.2)

/-! ## JavaScript numbers with non-finite values

`executeTrade` divides by `2 * atr` without guarding against zero; in
IEEE-754 arithmetic a positive value divided by `0` is `+Infinity`.
`JsNum` captures exactly the values reachable there. -/

/-- A JavaScript number: a finite rational, an infinity, or `NaN`. -/
inductive JsNum where
  | num (q : ℚ)
  | posInf
  | negInf
  | nan
deriving DecidableEq

/-- JavaScript division of two finite numbers (`a / b`), including the
IEEE behaviour at `b = 0`: `0/0 = NaN`, `a/0 = ±Infinity` by the sign
of `a`. -/
def jsDiv (a b : ℚ) : JsNum :=
  if b = 0 then
    if a = 0 then .nan else if 0 < a then .posInf else .negInf
  else .num (a / b)

/-- JavaScript `Math.floor`: identity on `±Infinity` and `NaN`. -/
def JsNum.floor : JsNum → JsNum
  | .num q => .num (⌊q⌋ : ℚ)
  | x => x

/-- The JavaScript comparison `x > 0` (false on `NaN`). -/
def JsNum.gtZero : JsNum → Bool
  | .num q => decide (0 < q)
  | .posInf => true
  | .negInf => false
  | .nan => false

/-- JavaScript `Number.prototype.toFixed(2)` idealised: round to the nearest cent. -/
def toFixed2 (q : ℚ) : ℚ := (round (q * 100) : ℚ) / 100

/-! ## Entry strategy (`strategy.js`) -/

/-- A watchlist entry as consumed by the strategy: the spread-merge of a
`Recommendation` and its `IndicatorSet` (only the fields the strategy
reads are listed). -/
structure StockEntry where
  ticker : String
  confidence : ℚ
  rsi1m : ℚ
  atr : ℚ
  macd : MacdValue
deriving DecidableEq

/-- An open position as read by the strategy (`p.symbol` is the only
field the scan inspects). -/
structure Position where
  symbol : String
  qty : ℚ
deriving DecidableEq

/-- A latest quote (`ap` = ask price, `bp` = bid price). -/
structure Quote where
  ap : ℚ
  bp : ℚ
deriving DecidableEq

/-- The bracket order handed to `placeBracketOrder`. -/
structure BracketOrder where
  symbol : String
  qty : JsNum
  side : String
  limit_price : ℚ
  stop_price : ℚ
  take_profit_price : ℚ
deriving DecidableEq

/-- Function `executeTrade` from `strategy.js`.  Here `quote` is the (already
unwrapped) result of the latest-quote fetch; `none`, or a falsy ask or
bid, makes the function throw and its own `catch` swallow the error, so
no order is submitted.  Otherwise it sizes the trade and submits a
bracket order exactly when the computed `quantity > 0`. -/
def executeTrade (equity riskPerTrade limitOrderOffset : ℚ) (stock : StockEntry)
    (quote : Option Quote) : Option BracketOrder :=
  match quote with
  | none => none
  | some q =>
    if q.ap = 0 ∨ q.bp = 0 then none
    else
      let currentPrice := q.ap
      let capitalToRisk := equity * (riskPerTrade / 100)
      let stopLossDistance := 2 * stock.atr
      let quantity := (jsDiv capitalToRisk stopLossDistance).floor
      if quantity.gtZero then
        some
          { symbol := stock.ticker
            qty := quantity
            side := "buy"
            limit_price := toFixed2 (q.bp * (1 + limitOrderOffset / 100))
            stop_price := toFixed2 (currentPrice - stopLossDistance)
            take_profit_price := toFixed2 (currentPrice + stopLossDistance * 1.5) }
      else none

/-- The check `state.positions.some(p => p.symbol === stock.ticker)`. -/
def hasOpenPosition (positions : List Position) (ticker : String) : Bool :=
  positions.any (fun p => p.symbol == ticker)

/-- The state read by `runScalpingStrategy`. -/
structure ScalpState where
  aiWatchlist : List StockEntry
  positions : List Position
  maxConcurrentScalps : ℕ
  isFirstTradeMadeToday : Bool
deriving DecidableEq

/-- The subsequent-trade `for` loop of `runScalpingStrategy`: skip
symbols with an open position, `break` once the position cap is
reached, and call `executeTrade` when the 5-minute MACD histogram is
bullish and the 1-minute RSI is below 45.  Returns the stocks on which
`executeTrade` is invoked, in scan order (`executeTrade` catches all
its own errors and never mutates `positions`, so it does not influence
the scan). -/
def scalpScan (positions : List Position) (maxScalps : ℕ) : List StockEntry → List StockEntry
  | [] => []
  | stock :: rest =>
    if hasOpenPosition positions stock.ticker then scalpScan positions maxScalps rest
    else if maxScalps ≤ positions.length then []
    else if 0 < stock.macd.histogram ∧ stock.rsi1m < 45 then
      stock :: scalpScan positions maxScalps rest
    else scalpScan positions maxScalps rest

/-- Function `runScalpingStrategy` from `strategy.js`, as the pair of (stocks on
which `executeTrade` is attempted, in order; the final value of
`isFirstTradeMadeToday`).  An empty watchlist or a reached position cap
returns immediately; otherwise, when the day's first trade has not been
made and the top-ranked entry has no open position, that single entry
is traded, the flag is set and the function returns; in every other
case it falls through to the technical scan. -/
def runScalpingStrategy (s : ScalpState) : List StockEntry × Bool :=
  if s.aiWatchlist.isEmpty then ([], s.isFirstTradeMadeToday)
  else if s.maxConcurrentScalps ≤ s.positions.length then ([], s.isFirstTradeMadeToday)
  else
    match s.isFirstTradeMadeToday, s.aiWatchlist with
    | false, stock :: _ =>
      if hasOpenPosition s.positions stock.ticker then
        (scalpScan s.positions s.maxConcurrentScalps s.aiWatchlist, false)
      else ([stock], true)
    | false, [] => ([], false)
    | true, _ => (scalpScan s.positions s.maxConcurrentScalps s.aiWatchlist, true)

/-- The entry-signal predicate of the subsequent-trade gate, as a
boolean on one watchlist entry given the open positions. -/
def entrySignal (positions : List Position) (stock : StockEntry) : Bool :=
  !hasOpenPosition positions stock.ticker
    && decide (0 < stock.macd.histogram) && decide (stock.rsi1m < 45)

/-! ## AI-driven watchlist builder (`strategy.js`, `runAiDrivenAnalysis`) -/

/-- The AI recommendation for one candidate. -/
structure Recommendation where
  ticker : String
  decision : String
  confidence : ℚ
  reasoning : String
deriving DecidableEq

/-- The indicator set attached to a watchlist entry. -/
structure IndicatorSet where
  symbol : String
  currentPrice : ℚ
  rsi1m : ℚ
  rsi5m : ℚ
  atr : ℚ
  macd : MacdValue
deriving DecidableEq

/-- One candidate of the AI cycle together with what the environment
answered for it: `getIndicators` returns `none` on insufficient data or
any error, and `getAiRecommendationForStock` returns `none` on any
request or parse failure (both catch internally; a per-candidate
exception is likewise logged and skipped). -/
structure Candidate where
  symbol : String
  indicators : Option IndicatorSet
  recommendation : Option Recommendation
deriving DecidableEq

/-- The merged `{ ...recommendation, ...indicators }` object pushed
onto `recommendedStocks`. -/
structure WatchlistEntry where
  recommendation : Recommendation
  indicators : IndicatorSet
deriving DecidableEq

/-- The `for (const candidate of candidates)` loop: keep, in scan
order, the candidates whose indicators are available and whose
recommendation is a `BUY` with `confidence >= 7`. -/
def analyzeCandidates : List Candidate → List WatchlistEntry
  | [] => []
  | c :: cs =>
    match c.indicators, c.recommendation with
    | some ind, some r =>
      if r.decision == "BUY" && decide (7 ≤ r.confidence) then
        ⟨r, ind⟩ :: analyzeCandidates cs
      else analyzeCandidates cs
    | _, _ => analyzeCandidates cs

/-- Stable insertion (descending by confidence): the new element goes
before the first element whose confidence is `≤` its own, i.e. after
every strictly-greater one. -/
def insertDesc (x : WatchlistEntry) : List WatchlistEntry → List WatchlistEntry
  | [] => [x]
  | y :: ys =>
    if y.recommendation.confidence ≤ x.recommendation.confidence then x :: y :: ys
    else y :: insertDesc x ys

/-- The call `recommendedStocks.sort((a, b) => b.confidence - a.confidence)`:
JavaScript's `Array.prototype.sort` is stable (ES2019), and with this
comparator it orders by confidence descending; realised here as a
stable insertion sort. -/
def sortByConfDesc : List WatchlistEntry → List WatchlistEntry
  | [] => []
  | x :: xs => insertDesc x (sortByConfDesc xs)

/-- Function `runAiDrivenAnalysis` from `strategy.js`, as the new value of
`state.aiWatchlist`.  `botRunning` is `state.isBotRunning`;
`moversEmpty` says the most-actives screener returned no candidates
(the cycle is aborted with no state change); otherwise the qualifying
candidates are collected and, when at least one exists, the watchlist
is replaced by them sorted by confidence descending — when none
exists the old watchlist is kept. -/
def runAiDrivenAnalysis (botRunning : Bool) (moversEmpty : Bool)
    (candidates : List Candidate) (old : List WatchlistEntry) : List WatchlistEntry :=
  if !botRunning then old
  else if moversEmpty then old
  else
    let recommendedStocks := analyzeCandidates candidates
    if 0 < recommendedStocks.length then sortByConfDesc recommendedStocks
    else old

/-! ## Trade-cycle scheduler (`app.js`) -/

/-- How the portfolio refresh (`updatePortfolioAndPositions`) can turn
out: success, a non-auth error (any `ApiError` or network failure
surfaced by `alpacaFetch`), or an `AuthError`. -/
inductive RefreshOutcome where
  | ok
  | apiError
  | authError
deriving DecidableEq

/-- Function `updatePortfolioAndPositions` from `api.js`, reduced to its error
flow: its `catch` logs every error and rethrows only `AuthError`
(`Except.error`); any other failure is swallowed and the caller
proceeds (`Except.ok false`); on success the portfolio state is
updated (`Except.ok true`). -/
def updatePortfolioAndPositions (o : RefreshOutcome) : Except Unit Bool :=
  match o with
  | .ok => .ok true
  | .apiError => .ok false
  | .authError => .error ()

/-- What `stopBot` does: clear both intervals and force a final
`saveDataAndSettings(true)`. -/
structure StopEffects where
  tradeIntervalCleared : Bool
  aiIntervalCleared : Bool
  finalSaveForced : Bool
deriving DecidableEq

/-- Function `stopBot` from `app.js`. -/
def stopBot : StopEffects := ⟨true, true, true⟩

/-- The observable outcome of one `tradeCycle` tick. -/
structure TradeCycleResult where
  portfolioRefreshed : Bool
  ranStrategy : Bool
  savedState : Bool
  stopped : Option StopEffects
deriving DecidableEq

/-- Function `tradeCycle` from `app.js`, reduced to its control flow: after the
daily-reset bookkeeping it awaits the portfolio refresh; if that throws
(only `AuthError` escapes the refresh) the cycle's `catch` stops the
bot and nothing else of the cycle runs; otherwise the scalping strategy
runs exactly when the market is open, and state is persisted
afterwards regardless. -/
def tradeCycle (botRunning : Bool) (o : RefreshOutcome) (marketOpen : Bool) :
    TradeCycleResult :=
  if !botRunning then ⟨false, false, false, none⟩
  else
    match updatePortfolioAndPositions o with
    | .error _ => ⟨false, false, false, some stopBot⟩
    | .ok refreshed => ⟨refreshed, marketOpen, true, none⟩

/-! ## Helper lemmas -/

theorem trueRanges_nonneg : ∀ (bars : List Bar), ∀ t ∈ trueRanges bars, 0 ≤ t
  | [] => by simp [trueRanges]
  | [_] => by simp [trueRanges]
  | a :: b :: rest => by
    intro t ht
    simp only [trueRanges, List.mem_cons] at ht
    rcases ht with rfl | ht
    · exact le_trans (abs_nonneg (b.h - a.c))
        (le_trans (le_max_left _ _) (le_max_right _ _))
    · exact trueRanges_nonneg (b :: rest) t ht

theorem sum_reverse_take (l : List ℚ) (n : ℕ) :
    (l.reverse.take n).sum = (l.drop (l.length - n)).sum := by
  have h : (l.reverse.take n).reverse = l.drop (l.length - n) := by
    simpa using (List.reverse_take : (List.take n l.reverse).reverse = _)
  rw [← List.sum_reverse, h]

/-! ## Claims -/

/-- C7: `calculateATR` returns 0 on fewer than 14 bars; otherwise it
returns the simple average of the last 14 true ranges, where the true
range of each bar is `max(high - low, |high - prevClose|, |low -
prevClose|)`; and the result is nonnegative for every input. -/
theorem atr_characterisation (bars : List Bar) :
    (bars.length < 14 → calculateATR bars 14 = 0)
      ∧ (14 ≤ bars.length →
          calculateATR bars 14 = ((trueRanges bars).reverse.take 14).sum / 14)
      ∧ 0 ≤ calculateATR bars 14 := by
  refine ⟨fun h => by simp [calculateATR, h], fun h => ?_, ?_⟩
  · rw [calculateATR, if_neg (by omega), sum_reverse_take]
    norm_num
  · rw [calculateATR]
    split
    · exact le_refl 0
    · refine div_nonneg (List.sum_nonneg fun t ht => ?_) (by norm_num)
      exact trueRanges_nonneg bars t (List.mem_of_mem_drop ht)

theorem fetch_429_then_success (outcomes : ℕ → FetchOutcome) (st : ℕ)
    (h200 : 200 ≤ st) (h300 : st < 300) :
    ∀ (k i retries delay : ℕ), k ≤ retries →
      (∀ j, j < k → outcomes (i + j) = .resp 429) →
      outcomes (i + k) = .resp st →
      fetchWithBackoff outcomes i retries delay
        = (.success st, (List.range k).map (fun j => delay * 2 ^ j))
  | 0, i, retries, delay, _, _, hsucc => by
    have h0 : outcomes i = .resp st := by simpa using hsucc
    rcases retries with _ | r <;>
      · rw [fetchWithBackoff.eq_def, h0]
        simp [h200, h300]
  | k + 1, i, retries, delay, hk, h429, hsucc => by
    obtain ⟨r, rfl⟩ : ∃ r, retries = r + 1 := ⟨retries - 1, by omega⟩
    have h0 : outcomes i = .resp 429 := by simpa using h429 0 (by omega)
    have ih := fetch_429_then_success outcomes st h200 h300 k (i + 1) r (delay * 2)
      (by omega)
      (fun j hj => by simpa [show i + 1 + j = i + (j + 1) by omega] using h429 (j + 1) (by omega))
      (by simpa [show i + 1 + k = i + (k + 1) by omega] using hsucc)
    rw [fetchWithBackoff.eq_def, h0]
    norm_num [ih]
    rw [List.range_succ_eq_map, List.map_cons, List.map_map]
    norm_num
    exact fun a _ => by rw [pow_succ]; ring

/-- C4: a run of HTTP 429 responses followed by a 2xx success within
the 3-retry budget yields the success with no error surfaced, sleeping
the exponentially doubling delays 2000, 4000, 8000 (one per retry
actually taken); an HTTP 401 yields the distinguished `AuthError` on
the very first attempt, with no retry and no delay, bypassing the
generic retry path for any retry budget. -/
theorem backoff_contract :
    (∀ (outcomes : ℕ → FetchOutcome) (k st : ℕ), k ≤ 3 →
        (∀ j, j < k → outcomes j = .resp 429) →
        outcomes k = .resp st → 200 ≤ st → st < 300 →
        fetchWithBackoff outcomes 0 3 2000
          = (.success st, (List.range k).map (fun j => 2000 * 2 ^ j)))
      ∧ (∀ (outcomes : ℕ → FetchOutcome) (retries delay : ℕ),
        outcomes 0 = .resp 401 →
        fetchWithBackoff outcomes 0 retries delay = (.authFailure, [])) := by
  constructor
  · intro outcomes k st hk h429 hsucc h200 h300
    exact fetch_429_then_success outcomes st h200 h300 k 0 3 2000 hk
      (fun j hj => by simpa using h429 j hj) (by simpa using hsucc)
  · intro outcomes retries delay h0
    rcases retries with _ | r <;>
      · rw [fetchWithBackoff.eq_def, h0]
        norm_num

/-- C4 witness: three 429s then a 200 give the success with delays
`[2000, 4000, 8000]`; an immediate 401 gives `authFailure` with no
delays. -/
theorem backoff_contract_witness :
    fetchWithBackoff (fun j => if j < 3 then .resp 429 else .resp 200) 0 3 2000
        = (.success 200, [2000, 4000, 8000])
      ∧ fetchWithBackoff (fun _ => .resp 401) 0 3 2000 = (.authFailure, []) :=
  ⟨(backoff_contract.1 (fun j => if j < 3 then .resp 429 else .resp 200) 3 200
      (by omega) (fun j hj => by simp [hj]) (by simp) (by omega) (by omega)).trans (by decide),
    backoff_contract.2 (fun _ => .resp 401) 3 2000 rfl⟩

theorem seed_foldl_nonneg :
    ∀ (ds : List ℚ) (g l : ℚ), 0 ≤ g → 0 ≤ l →
      0 ≤ (ds.foldl (fun gl d => if 0 ≤ d then (gl.1 + d, gl.2) else (gl.1, gl.2 - d)) (g, l)).1
        ∧ 0 ≤ (ds.foldl
            (fun gl d => if 0 ≤ d then (gl.1 + d, gl.2) else (gl.1, gl.2 - d)) (g, l)).2
  | [], g, l, hg, hl => ⟨hg, hl⟩
  | d :: ds, g, l, hg, hl => by
    rw [List.foldl_cons]
    rcases le_or_lt 0 d with hd | hd
    · simpa [hd] using seed_foldl_nonneg ds (g + d) l (by linarith) hl
    · simpa [not_le.mpr hd] using seed_foldl_nonneg ds g (l - d) hg (by linarith)

theorem seedGainsLosses_nonneg (ds : List ℚ) :
    0 ≤ (seedGainsLosses ds).1 ∧ 0 ≤ (seedGainsLosses ds).2 :=
  seed_foldl_nonneg ds 0 0 le_rfl le_rfl

theorem wilder_foldl_nonneg (period : ℕ) (hp : 1 ≤ period) :
    ∀ (ds : List ℚ) (g l : ℚ), 0 ≤ g → 0 ≤ l →
      0 ≤ (ds.foldl (wilderStep period) (g, l)).1 ∧ 0 ≤ (ds.foldl (wilderStep period) (g, l)).2
  | [], g, l, hg, hl => ⟨hg, hl⟩
  | d :: ds, g, l, hg, hl => by
    have hp1 : (0 : ℚ) ≤ (period : ℚ) - 1 := by
      have : (1 : ℚ) ≤ (period : ℚ) := by exact_mod_cast hp
      linarith
    have hpq : (0 : ℚ) ≤ (period : ℚ) := by positivity
    rw [List.foldl_cons]
    rcases le_or_lt 0 d with hd | hd
    · simpa [wilderStep, hd] using wilder_foldl_nonneg period hp ds
        ((g * ((period : ℚ) - 1) + d) / period) (l * ((period : ℚ) - 1) / period)
        (div_nonneg (by nlinarith) hpq) (div_nonneg (by nlinarith) hpq)
    · simpa [wilderStep, not_le.mpr hd] using wilder_foldl_nonneg period hp ds
        (g * ((period : ℚ) - 1) / period) ((l * ((period : ℚ) - 1) - d) / period)
        (div_nonneg (by nlinarith) hpq) (div_nonneg (by nlinarith) hpq)

theorem rsiAvgs_nonneg (prices : List ℚ) (period : ℕ) (hp : 1 ≤ period) :
    0 ≤ (rsiAvgs prices period).1 ∧ 0 ≤ (rsiAvgs prices period).2 := by
  have hpq : (0 : ℚ) ≤ (period : ℚ) := by positivity
  have hseed := seedGainsLosses_nonneg ((diffs prices).take period)
  exact wilder_foldl_nonneg period hp ((diffs prices).drop period)
    ((seedGainsLosses ((diffs prices).take period)).1 / period)
    ((seedGainsLosses ((diffs prices).take period)).2 / period)
    (div_nonneg hseed.1 hpq) (div_nonneg hseed.2 hpq)

/-- C8: `calculateRSI` always lands in `[0, 100]`; it returns the
neutral 50 whenever the price list has at most 14 elements; and
whenever the smoothed average loss is 0 (on a long-enough list) it
returns exactly 100. -/
theorem rsi_range (prices : List ℚ) :
    (0 ≤ calculateRSI prices 14 ∧ calculateRSI prices 14 ≤ 100)
      ∧ (prices.length ≤ 14 → calculateRSI prices 14 = 50)
      ∧ (15 ≤ prices.length → (rsiAvgs prices 14).2 = 0 → calculateRSI prices 14 = 100) := by
  refine ⟨?_, fun h => by rw [calculateRSI, if_pos (by omega)],
    fun h h0 => by simp only [calculateRSI, if_neg (show ¬prices.length < 14 + 1 by omega)]
                   rw [if_pos h0]⟩
  simp only [calculateRSI]
  split
  · norm_num
  · have ha := rsiAvgs_nonneg prices 14 (by norm_num)
    split
    · norm_num
    · rename_i h0
      have hl : 0 < (rsiAvgs prices 14).2 := lt_of_le_of_ne ha.2 (Ne.symm h0)
      have hrs : 0 ≤ (rsiAvgs prices 14).1 / (rsiAvgs prices 14).2 := div_nonneg ha.1 hl.le
      have hpos : 0 < 100 / (1 + (rsiAvgs prices 14).1 / (rsiAvgs prices 14).2) :=
        div_pos (by norm_num) (by linarith)
      have hle : 100 / (1 + (rsiAvgs prices 14).1 / (rsiAvgs prices 14).2) ≤ 100 :=
        div_le_self (by norm_num) (by linarith)
      constructor <;> linarith

/-- Fifteen strictly increasing prices: all 14 seed differences are
gains, so the smoothed average loss is 0. -/
def rsiWitnessPrices : List ℚ :=
  [0, 1, 2, 3, 4, 5, 6, 7, 8, 9, 10, 11, 12, 13, 14]

/-- C8 witness: the all-gains series yields exactly 100, a 3-element
series yields the neutral 50, and both are within `[0, 100]`. -/
theorem rsi_range_witness :
    calculateRSI rsiWitnessPrices 14 = 100
      ∧ calculateRSI [1, 2, 3] 14 = 50
      ∧ (0 ≤ calculateRSI rsiWitnessPrices 14 ∧ calculateRSI rsiWitnessPrices 14 ≤ 100) :=
  ⟨(rsi_range rsiWitnessPrices).2.2 (by decide)
      (by norm_num [rsiAvgs, diffs, seedGainsLosses, rsiWitnessPrices]),
    (rsi_range [1, 2, 3]).2.1 (by decide),
    (rsi_range rsiWitnessPrices).1⟩

/-- C1: with a nonempty watchlist, no open positions, the first trade
of the day not yet made and a positive position cap, one invocation of
`runScalpingStrategy` attempts exactly one trade — on the top-ranked
watchlist entry — sets `isFirstTradeMadeToday` and returns without
evaluating any other entry. -/
theorem first_trade_gate (s : ScalpState) (w : StockEntry) (rest : List StockEntry)
    (hw : s.aiWatchlist = w :: rest) (hpos : s.positions = [])
    (hflag : s.isFirstTradeMadeToday = false) (hcap : 0 < s.maxConcurrentScalps) :
    runScalpingStrategy s = ([w], true) := by
  have hnb : ¬s.maxConcurrentScalps ≤ s.positions.length := by
    rw [hpos]
    simp only [List.length_nil, Nat.le_zero]
    omega
  simp [runScalpingStrategy, hw, hpos, hflag, hnb, hasOpenPosition]
  omega

/-- C1 witness: a two-entry watchlist, no positions, flag unset — only
the top entry is traded and the flag is set. -/
theorem first_trade_gate_witness :
    runScalpingStrategy
        ⟨[⟨"A", 9, 40, 1, ⟨0, 0, 1⟩⟩, ⟨"B", 8, 40, 1, ⟨0, 0, 2⟩⟩], [], 5, false⟩
      = ([⟨"A", 9, 40, 1, ⟨0, 0, 1⟩⟩], true) :=
  first_trade_gate _ ⟨"A", 9, 40, 1, ⟨0, 0, 1⟩⟩ [⟨"B", 8, 40, 1, ⟨0, 0, 2⟩⟩]
    rfl rfl rfl (by decide)

theorem scalpScan_eq_filter (positions : List Position) (maxScalps : ℕ)
    (hcap : positions.length < maxScalps) :
    ∀ l : List StockEntry, scalpScan positions maxScalps l = List.filter (entrySignal positions) l
  | [] => rfl
  | stock :: rest => by
    have hnb : ¬maxScalps ≤ positions.length := by omega
    have ih := scalpScan_eq_filter positions maxScalps hcap rest
    by_cases hp : hasOpenPosition positions stock.ticker
    · simp [scalpScan, hp, entrySignal, ih, List.filter_cons]
    · by_cases hsig : 0 < stock.macd.histogram ∧ stock.rsi1m < 45
      · simp [scalpScan, hp, hnb, hsig, entrySignal, ih, List.filter_cons, hsig.1, hsig.2]
      · rw [not_and_or] at hsig
        rcases hsig with hsig | hsig <;>
          simp [scalpScan, hp, hnb, hsig, entrySignal, ih, List.filter_cons]

/-- C6: with the day's first trade already made and the position cap
not reached, the scan visits the watchlist in rank order and attempts a
trade on an entry exactly when it has no open position, its 5-minute
MACD histogram is positive, and its 1-minute RSI is below 45; the
day-flag is left set. -/
theorem subsequent_trade_gate (s : ScalpState) (hflag : s.isFirstTradeMadeToday = true)
    (hcap : s.positions.length < s.maxConcurrentScalps) :
    (runScalpingStrategy s).1 = s.aiWatchlist.filter (entrySignal s.positions)
      ∧ (runScalpingStrategy s).2 = true
      ∧ ∀ st, st ∈ (runScalpingStrategy s).1 ↔
          st ∈ s.aiWatchlist ∧ hasOpenPosition s.positions st.ticker = false
            ∧ 0 < st.macd.histogram ∧ st.rsi1m < 45 := by
  have hnb : ¬s.maxConcurrentScalps ≤ s.positions.length := by omega
  have hfil : (runScalpingStrategy s).1 = s.aiWatchlist.filter (entrySignal s.positions) := by
    rcases hwl : s.aiWatchlist with _ | ⟨w, rest⟩
    · simp [runScalpingStrategy, hwl]
    · simp [runScalpingStrategy, hwl, hflag, hnb, scalpScan_eq_filter s.positions _ hcap]
  have hsnd : (runScalpingStrategy s).2 = true := by
    rcases hwl : s.aiWatchlist with _ | ⟨w, rest⟩ <;>
      simp [runScalpingStrategy, hwl, hflag, hnb]
  refine ⟨hfil, hsnd, fun st => ?_⟩
  rw [hfil, List.mem_filter, entrySignal]
  simp [and_assoc]

/-- C6 witness: symbol A has a non-positive histogram, symbol B has a
positive histogram and RSI below 45 — only B receives a trade
attempt. -/
theorem subsequent_trade_gate_witness :
    (runScalpingStrategy
        ⟨[⟨"A", 9, 40, 1, ⟨0, 0, -1⟩⟩, ⟨"B", 8, 40, 1, ⟨0, 0, 2⟩⟩], [], 5, true⟩).1
      = [⟨"B", 8, 40, 1, ⟨0, 0, 2⟩⟩] := by
  have h := (subsequent_trade_gate
    ⟨[⟨"A", 9, 40, 1, ⟨0, 0, -1⟩⟩, ⟨"B", 8, 40, 1, ⟨0, 0, 2⟩⟩], [], 5, true⟩
    rfl (by decide)).1
  rw [h]
  decide

theorem insertDesc_perm (x : WatchlistEntry) :
    ∀ l : List WatchlistEntry, (insertDesc x l).Perm (x :: l)
  | [] => List.Perm.refl _
  | y :: ys => by
    rw [insertDesc]
    split
    · exact List.Perm.refl _
    · exact ((insertDesc_perm x ys).cons y).trans (List.Perm.swap x y ys)

theorem sortByConfDesc_perm : ∀ l : List WatchlistEntry, (sortByConfDesc l).Perm l
  | [] => List.Perm.refl _
  | x :: xs =>
    (insertDesc_perm x (sortByConfDesc xs)).trans ((sortByConfDesc_perm xs).cons x)

theorem insertDesc_pairwise (x : WatchlistEntry) :
    ∀ l : List WatchlistEntry,
      List.Pairwise (fun a b => b.recommendation.confidence ≤ a.recommendation.confidence) l →
      List.Pairwise (fun a b => b.recommendation.confidence ≤ a.recommendation.confidence)
        (insertDesc x l)
  | [], _ => List.pairwise_singleton _ x
  | y :: ys, h => by
    rw [List.pairwise_cons] at h
    rw [insertDesc]
    split
    · rename_i hle
      rw [List.pairwise_cons]
      refine ⟨fun z hz => ?_, List.pairwise_cons.mpr h⟩
      rcases List.mem_cons.mp hz with rfl | hz
      · exact hle
      · exact le_trans (h.1 z hz) hle
    · rename_i hlt
      rw [List.pairwise_cons]
      refine ⟨fun z hz => ?_, insertDesc_pairwise x ys h.2⟩
      rcases List.mem_cons.mp ((insertDesc_perm x ys).mem_iff.mp hz) with rfl | hz
      · exact le_of_lt (not_le.mp hlt)
      · exact h.1 z hz

theorem sortByConfDesc_pairwise :
    ∀ l : List WatchlistEntry,
      List.Pairwise (fun a b => b.recommendation.confidence ≤ a.recommendation.confidence)
        (sortByConfDesc l)
  | [] => List.Pairwise.nil
  | x :: xs => insertDesc_pairwise x (sortByConfDesc xs) (sortByConfDesc_pairwise xs)

theorem insertDesc_filter (c : ℚ) (x : WatchlistEntry) :
    ∀ l : List WatchlistEntry,
      (insertDesc x l).filter (fun e => e.recommendation.confidence == c)
        = (x :: l).filter (fun e => e.recommendation.confidence == c)
  | [] => rfl
  | y :: ys => by
    by_cases hle : y.recommendation.confidence ≤ x.recommendation.confidence
    · rw [insertDesc, if_pos hle]
    · have hlt := not_le.mp hle
      have ih := insertDesc_filter c x ys
      by_cases hyc : y.recommendation.confidence = c
      · have hxc : ¬x.recommendation.confidence = c := fun hxc => by
          rw [hxc, ← hyc] at hlt
          exact lt_irrefl _ hlt
        have hcx : ¬c ≤ x.recommendation.confidence := hyc ▸ hle
        simp [insertDesc, hle, List.filter_cons, hyc, hxc, hcx, ih]
      · simp [insertDesc, hle, List.filter_cons, hyc, ih]

theorem sortByConfDesc_filter (c : ℚ) :
    ∀ l : List WatchlistEntry,
      (sortByConfDesc l).filter (fun e => e.recommendation.confidence == c)
        = l.filter (fun e => e.recommendation.confidence == c)
  | [] => rfl
  | x :: xs => by
    rw [sortByConfDesc, insertDesc_filter, List.filter_cons, List.filter_cons,
      sortByConfDesc_filter c xs]

/-- C3: after an AI cycle (bot running, movers available), if at least
one candidate qualifies (`decision = BUY`, `confidence ≥ 7`) the
watchlist is replaced by exactly the qualifying entries sorted
descending by confidence — a permutation of the qualifying set, sorted,
with ties kept in original scan order (the entries of each fixed
confidence appear exactly as they did in the scan) — and if none
qualifies the watchlist is left exactly as it was, so a nonempty
watchlist never becomes empty. -/
theorem ai_watchlist_update (candidates : List Candidate) (old : List WatchlistEntry) :
    (analyzeCandidates candidates = [] →
        runAiDrivenAnalysis true false candidates old = old)
      ∧ (analyzeCandidates candidates ≠ [] →
        runAiDrivenAnalysis true false candidates old
            = sortByConfDesc (analyzeCandidates candidates)
          ∧ (runAiDrivenAnalysis true false candidates old).Perm (analyzeCandidates candidates)
          ∧ List.Pairwise (fun a b => b.recommendation.confidence ≤ a.recommendation.confidence)
              (runAiDrivenAnalysis true false candidates old)
          ∧ ∀ c : ℚ, (runAiDrivenAnalysis true false candidates old).filter
                (fun e => e.recommendation.confidence == c)
              = (analyzeCandidates candidates).filter
                (fun e => e.recommendation.confidence == c))
      ∧ (old ≠ [] → runAiDrivenAnalysis true false candidates old ≠ []) := by
  have hres : runAiDrivenAnalysis true false candidates old
      = if 0 < (analyzeCandidates candidates).length
        then sortByConfDesc (analyzeCandidates candidates) else old := by
    rw [runAiDrivenAnalysis]
    norm_num
  refine ⟨fun h => by rw [hres, h]; norm_num, fun h => ?_, fun hold => ?_⟩
  · have hlen : 0 < (analyzeCandidates candidates).length := List.length_pos.mpr h
    rw [hres, if_pos hlen]
    exact ⟨rfl, sortByConfDesc_perm _, sortByConfDesc_pairwise _,
      fun c => sortByConfDesc_filter c _⟩
  · rw [hres]
    split
    · rename_i hlen
      have := (sortByConfDesc_perm (analyzeCandidates candidates)).length_eq
      intro hnil
      rw [hnil] at this
      simp only [List.length_nil] at this
      omega
    · exact hold

/-- Four concrete AI-cycle candidates: a BUY at confidence 7, a HOLD at
confidence 9 (excluded), a BUY at confidence 9 and another BUY at
confidence 7 (tied with the first). -/
def aiWitnessCandidates : List Candidate :=
  [⟨"A", some ⟨"A", 1, 1, 1, 1, ⟨0, 0, 0⟩⟩, some ⟨"A", "BUY", 7, "r"⟩⟩,
   ⟨"H", some ⟨"H", 1, 1, 1, 1, ⟨0, 0, 0⟩⟩, some ⟨"H", "HOLD", 9, "r"⟩⟩,
   ⟨"B", some ⟨"B", 1, 1, 1, 1, ⟨0, 0, 0⟩⟩, some ⟨"B", "BUY", 9, "r"⟩⟩,
   ⟨"C", some ⟨"C", 1, 1, 1, 1, ⟨0, 0, 0⟩⟩, some ⟨"C", "BUY", 7, "r"⟩⟩]

/-- C3 witness: the qualifying candidates B (9), A (7), C (7) replace
the watchlist sorted descending with the 7-confidence tie in scan
order, and a cycle with no qualifying candidate keeps the old
watchlist. -/
theorem ai_watchlist_update_witness :
    runAiDrivenAnalysis true false aiWitnessCandidates []
        = [⟨⟨"B", "BUY", 9, "r"⟩, ⟨"B", 1, 1, 1, 1, ⟨0, 0, 0⟩⟩⟩,
           ⟨⟨"A", "BUY", 7, "r"⟩, ⟨"A", 1, 1, 1, 1, ⟨0, 0, 0⟩⟩⟩,
           ⟨⟨"C", "BUY", 7, "r"⟩, ⟨"C", 1, 1, 1, 1, ⟨0, 0, 0⟩⟩⟩]
      ∧ runAiDrivenAnalysis true false
          [⟨"H", some ⟨"H", 1, 1, 1, 1, ⟨0, 0, 0⟩⟩, some ⟨"H", "HOLD", 9, "r"⟩⟩]
          [⟨⟨"O", "BUY", 8, "r"⟩, ⟨"O", 1, 1, 1, 1, ⟨0, 0, 0⟩⟩⟩]
        = [⟨⟨"O", "BUY", 8, "r"⟩, ⟨"O", 1, 1, 1, 1, ⟨0, 0, 0⟩⟩⟩] := by
  constructor
  · rw [((ai_watchlist_update aiWitnessCandidates []).2.1 (by decide)).1]
    decide
  · exact (ai_watchlist_update _ _).1 (by decide)

theorem length_emaFrom (k : ℚ) : ∀ (prev : ℚ) (l : List ℚ), (emaFrom k prev l).length = l.length
  | _, [] => rfl
  | prev, x :: xs => by
    rw [emaFrom]
    simpa using length_emaFrom k (x * k + prev * (1 - k)) xs

theorem length_calculateEMA (data : List ℚ) (period : ℕ) :
    (calculateEMA data period).length = data.length := by
  cases data <;> simp [calculateEMA, length_emaFrom]

theorem getLast?_range' : ∀ (n s : ℕ), (List.range' s (n + 1)).getLast? = some (s + n)
  | 0, s => by simp [List.range']
  | n + 1, s => by
    rw [show List.range' s (n + 2) = s :: List.range' (s + 1) (n + 1) from by
      simp [List.range']]
    rw [List.getLast?_cons, getLast?_range' n (s + 1)]
    simp
    omega

/-- C5 amended: for at least 34 prices (at least 26, and at least 9
MACD-line points after the loop's alignment) `calculateMACD` returns as
`macd` the last entry of its own MACD line — the short EMA read
`longPeriod - shortPeriod = 14` indices EARLIER minus the long EMA at
the last index, not the two EMAs at the same point — as `signal` the
last value of the 9-period EMA over that line, and as `histogram`
exactly `macd - signal`; with fewer points it returns the all-zero
triple. -/
theorem macd_code_characterisation (prices : List ℚ) :
    (34 ≤ prices.length →
        (calculateMACD prices 12 26 9).macd
            = (calculateEMA prices 12).getD (prices.length - 15) 0
              - (calculateEMA prices 26).getD (prices.length - 1) 0
          ∧ (calculateMACD prices 12 26 9).signal
            = (calculateEMA (macdLineCode prices 12 26) 9).getLast?.getD 0
          ∧ (calculateMACD prices 12 26 9).histogram
            = (calculateMACD prices 12 26 9).macd - (calculateMACD prices 12 26 9).signal)
      ∧ (prices.length < 34 → calculateMACD prices 12 26 9 = ⟨0, 0, 0⟩) := by
  have hlen : (macdLineCode prices 12 26).length = prices.length - 25 := by
    simp [macdLineCode]
  constructor
  · intro h
    have h26 : ¬prices.length < 26 := by omega
    have h9 : ¬(macdLineCode prices 12 26).length < 9 := by omega
    have hout : calculateMACD prices 12 26 9
        = ⟨(macdLineCode prices 12 26).getLast?.getD 0,
           (calculateEMA (macdLineCode prices 12 26) 9).getLast?.getD 0,
           (macdLineCode prices 12 26).getLast?.getD 0
             - (calculateEMA (macdLineCode prices 12 26) 9).getLast?.getD 0⟩ := by
      simp only [calculateMACD, if_neg h26, if_neg h9]
    refine ⟨?_, by rw [hout], by rw [hout]⟩
    rw [hout]
    obtain ⟨m, hm⟩ : ∃ m, prices.length - 25 = m + 1 := ⟨prices.length - 26, by omega⟩
    have hmap : macdLineCode prices 12 26
        = (List.range' 25 (m + 1)).map
            (fun i => (calculateEMA prices 12).getD (i - 14) 0
              - (calculateEMA prices 26).getD i 0) := by
      simp only [macdLineCode]
      rw [show 26 - 1 = 25 from rfl, hm]
    simp only [MacdValue.mk.injEq, hmap]
    rw [show ((List.range' 25 (m + 1)).map
        (fun i => (calculateEMA prices 12).getD (i - 14) 0
          - (calculateEMA prices 26).getD i 0)).getLast?
      = ((List.range' 25 (m + 1)).getLast?).map
          (fun i => (calculateEMA prices 12).getD (i - 14) 0
            - (calculateEMA prices 26).getD i 0) from List.getLast?_map _ _]
    rw [getLast?_range' m 25]
    simp only [Option.map_some', Option.getD_some]
    rw [show 25 + m = prices.length - 1 by omega, show prices.length - 1 - 14
      = prices.length - 15 by omega]
  · intro h
    by_cases h26 : prices.length < 26
    · simp only [calculateMACD, if_pos h26]
    · have h9 : (macdLineCode prices 12 26).length < 9 := by omega
      simp only [calculateMACD, if_neg h26, if_pos h9]

/-- 33 zeros followed by a 1: a 34-point series on which the two
MACD-line conventions disagree. -/
def macdCounterPrices : List ℚ := List.replicate 33 0 ++ [1]

/-- C5 counterexample: on the concrete 34-point series the returned
`macd` (its MACD line reads the short EMA 14 indices earlier) differs
from the last value of `EMA(12) - EMA(26)` taken at the same points:
the code yields `-2/27`, the same-point convention `28/351`. -/
theorem macd_alignment_counterexample :
    (calculateMACD macdCounterPrices 12 26 9).macd
      ≠ ((macdLineSamePoints macdCounterPrices 12 26).getLast?).getD 0 := by
  norm_num [calculateMACD, macdLineCode, macdLineSamePoints, calculateEMA, emaFrom,
    macdCounterPrices, List.replicate, List.range']

/-- C5 witness: the amended characterisation instantiated on the
34-point series, plus the all-zero triple on a 3-point series. -/
theorem macd_code_characterisation_witness :
    ((calculateMACD macdCounterPrices 12 26 9).macd
        = (calculateEMA macdCounterPrices 12).getD (macdCounterPrices.length - 15) 0
          - (calculateEMA macdCounterPrices 26).getD (macdCounterPrices.length - 1) 0)
      ∧ (calculateMACD macdCounterPrices 12 26 9).histogram
        = (calculateMACD macdCounterPrices 12 26 9).macd
          - (calculateMACD macdCounterPrices 12 26 9).signal
      ∧ calculateMACD [1, 2, 3] 12 26 9 = ⟨0, 0, 0⟩ :=
  ⟨((macd_code_characterisation macdCounterPrices).1 (by decide)).1,
    ((macd_code_characterisation macdCounterPrices).1 (by decide)).2.2,
    (macd_code_characterisation [1, 2, 3]).2 (by decide)⟩

/-- C9 counterexample: a non-auth portfolio-refresh failure does NOT
abort the cycle's remaining work — the error is swallowed inside the
refresh, the scalping strategy still runs (market open) and the state
is still persisted, contradicting the claim that any other refresh
error "aborts only that cycle's remaining work". -/
theorem cycle_api_error_counterexample :
    (tradeCycle true .apiError true).ranStrategy = true
      ∧ (tradeCycle true .apiError true).savedState = true
      ∧ (tradeCycle true .apiError true).stopped = none := by
  exact ⟨rfl, rfl, rfl⟩

/-- C9 amended: an `AuthError` from the portfolio refresh stops the
scheduler (both intervals cancelled, final persistence forced) and
skips the rest of the cycle; any other refresh error is caught and
logged inside the refresh itself, after which the cycle still runs the
strategy (when the market is open) and persists state, and the
scheduler is never shut down. -/
theorem auth_failure_stops_scheduler (marketOpen : Bool) :
    tradeCycle true .authError marketOpen
        = ⟨false, false, false, some ⟨true, true, true⟩⟩
      ∧ tradeCycle true .apiError marketOpen = ⟨false, marketOpen, true, none⟩
      ∧ tradeCycle true .ok marketOpen = ⟨true, marketOpen, true, none⟩ := by
  cases marketOpen <;> exact ⟨rfl, rfl, rfl⟩

/-- C2 counterexample: the submitted prices are the `toFixed(2)`
strings, i.e. rounded to the nearest cent, so with `ATR = 0.333`
(stop distance `0.666`) and ask `10` the submitted stop-loss is
`9.33`, not `ask - stopDistance = 9.334`. -/
theorem trade_sizing_counterexample :
    (executeTrade 10000 1 0 ⟨"X", 8, 40, 333/1000, ⟨0, 0, 1⟩⟩ (some ⟨10, 10⟩)).map
        BracketOrder.stop_price = some (933/100)
      ∧ (933 : ℚ)/100 ≠ 10 - 2 * (333/1000) := by
  constructor
  · norm_num [executeTrade, jsDiv, JsNum.floor, JsNum.gtZero, toFixed2, round_eq]
  · norm_num

/-- C2 amended: risk capital is `equity * riskPerTrade / 100`, the stop
distance is `2 * ATR`, the quantity is `floor(riskCapital /
stopDistance)` (for nonzero ATR); a non-positive quantity submits
nothing, and a positive one submits a bracket order whose stop-loss,
take-profit and limit prices are the claimed formulas rounded to the
nearest cent by `toFixed(2)`; in the concrete instance (equity 10000,
risk 1%, ATR 0.5) the quantity is 100 with stop `ask - 1` and target
`ask + 1.5` rounded to cents. -/
theorem entry_trade_sizing (equity riskPerTrade offset : ℚ) (stock : StockEntry) (q : Quote)
    (hap : q.ap ≠ 0) (hbp : q.bp ≠ 0) (hatr : stock.atr ≠ 0) :
    (⌊equity * (riskPerTrade / 100) / (2 * stock.atr)⌋ ≤ 0 →
        executeTrade equity riskPerTrade offset stock (some q) = none)
      ∧ (0 < ⌊equity * (riskPerTrade / 100) / (2 * stock.atr)⌋ →
        executeTrade equity riskPerTrade offset stock (some q) =
          some ⟨stock.ticker, .num (⌊equity * (riskPerTrade / 100) / (2 * stock.atr)⌋ : ℚ),
            "buy", toFixed2 (q.bp * (1 + offset / 100)),
            toFixed2 (q.ap - 2 * stock.atr), toFixed2 (q.ap + 2 * stock.atr * 1.5)⟩)
      ∧ (equity = 10000 → riskPerTrade = 1 → stock.atr = 1/2 →
        executeTrade equity riskPerTrade offset stock (some q) =
          some ⟨stock.ticker, .num 100, "buy", toFixed2 (q.bp * (1 + offset / 100)),
            toFixed2 (q.ap - 1), toFixed2 (q.ap + 3/2)⟩) := by
  have hsd : 2 * stock.atr ≠ 0 := mul_ne_zero two_ne_zero hatr
  have hbase : ∀ h : ¬(q.ap = 0 ∨ q.bp = 0),
      executeTrade equity riskPerTrade offset stock (some q) =
        if (0 : ℚ) < (⌊equity * (riskPerTrade / 100) / (2 * stock.atr)⌋ : ℚ) then
          some ⟨stock.ticker, .num (⌊equity * (riskPerTrade / 100) / (2 * stock.atr)⌋ : ℚ),
            "buy", toFixed2 (q.bp * (1 + offset / 100)),
            toFixed2 (q.ap - 2 * stock.atr), toFixed2 (q.ap + 2 * stock.atr * 1.5)⟩
        else none := by
    intro h
    simp only [executeTrade, if_neg h, jsDiv, if_neg hsd, JsNum.floor, JsNum.gtZero,
      decide_eq_true_eq]
  have hor : ¬(q.ap = 0 ∨ q.bp = 0) := by tauto
  refine ⟨fun hle => ?_, fun hpos => ?_, fun he hr ha => ?_⟩
  · rw [hbase hor, if_neg]
    exact_mod_cast not_lt.mpr hle
  · rw [hbase hor, if_pos]
    exact_mod_cast hpos
  · rw [hbase hor]
    subst he
    subst hr
    rw [ha]
    norm_num

/-- C2 witness: equity 10000, risk 1%, ATR 0.5, ask 20, bid 19.99 and
zero limit offset give a 100-share order with stop 19, target 21.5 and
limit 19.99. -/
theorem entry_trade_sizing_witness :
    executeTrade 10000 1 0 ⟨"X", 8, 40, 1/2, ⟨0, 0, 1⟩⟩ (some ⟨20, 1999/100⟩)
      = some ⟨"X", .num 100, "buy", 1999/100, 19, 43/2⟩ := by
  have h := (entry_trade_sizing 10000 1 0 ⟨"X", 8, 40, 1/2, ⟨0, 0, 1⟩⟩ ⟨20, 1999/100⟩
    (by norm_num) (by norm_num) (by norm_num)).2.2 rfl rfl rfl
  rw [h]
  norm_num [toFixed2, round_eq]

/-- C10 counterexample: with `ATR = 0` the order IS submitted with
quantity `+Infinity`, but its stop price is the `toFixed(2)`-rounded
ask, which differs from the ask itself when the ask is not a whole
number of cents (ask 10.001 gives stop 10.00). -/
theorem unguarded_zero_atr_counterexample :
    executeTrade 10000 1 0 ⟨"X", 8, 40, 0, ⟨0, 0, 1⟩⟩ (some ⟨10001/1000, 10⟩)
        = some ⟨"X", .posInf, "buy", 10, 10, 10⟩
      ∧ (10 : ℚ) ≠ 10001/1000 := by
  constructor
  · norm_num [executeTrade, jsDiv, JsNum.floor, JsNum.gtZero, toFixed2, round_eq]
  · norm_num

/-- C10 amended: `executeTrade` does not guard the division by the stop
distance: for any watchlist entry with `atr = 0` and positive risk
capital the computed quantity is `+Infinity`, which passes the
`quantity > 0` check, so a bracket order with a non-finite quantity and
a stop-loss price equal to the cent-rounded ask is submitted instead of
being skipped. -/
theorem unguarded_zero_atr_division (equity riskPerTrade offset : ℚ) (stock : StockEntry)
    (q : Quote) (hap : q.ap ≠ 0) (hbp : q.bp ≠ 0) (hatr : stock.atr = 0)
    (hcap : 0 < equity * (riskPerTrade / 100)) :
    executeTrade equity riskPerTrade offset stock (some q)
        = some ⟨stock.ticker, .posInf, "buy", toFixed2 (q.bp * (1 + offset / 100)),
            toFixed2 q.ap, toFixed2 q.ap⟩
      ∧ JsNum.posInf.gtZero = true := by
  have hor : ¬(q.ap = 0 ∨ q.bp = 0) := by tauto
  refine ⟨?_, rfl⟩
  simp only [executeTrade, if_neg hor, hatr, mul_zero, jsDiv, if_pos rfl,
    if_neg (ne_of_gt hcap), if_pos hcap, JsNum.floor, JsNum.gtZero, if_true]
  norm_num

/-- C10 witness: equity 10000, risk 1%, ATR 0 and ask 20 submit an
order with quantity `+Infinity` and stop price equal to the ask. -/
theorem unguarded_zero_atr_division_witness :
    executeTrade 10000 1 0 ⟨"Y", 8, 40, 0, ⟨0, 0, 1⟩⟩ (some ⟨20, 20⟩)
      = some ⟨"Y", .posInf, "buy", 20, 20, 20⟩ := by
  have h := (unguarded_zero_atr_division 10000 1 0 ⟨"Y", 8, 40, 0, ⟨0, 0, 1⟩⟩ ⟨20, 20⟩
    (by norm_num) (by norm_num) rfl (by norm_num)).1
  rw [h]
  norm_num [toFixed2, round_eq]

/-- Fifteen concrete bars `{h: n+1, l: n, c: n+1/2}` for `n = 0..14`;
every true range is `3/2`. -/
def atrWitnessBars : List Bar :=
  [⟨1, 0, 1/2⟩, ⟨2, 1, 3/2⟩, ⟨3, 2, 5/2⟩, ⟨4, 3, 7/2⟩, ⟨5, 4, 9/2⟩,
   ⟨6, 5, 11/2⟩, ⟨7, 6, 13/2⟩, ⟨8, 7, 15/2⟩, ⟨9, 8, 17/2⟩, ⟨10, 9, 19/2⟩,
   ⟨11, 10, 21/2⟩, ⟨12, 11, 23/2⟩, ⟨13, 12, 25/2⟩, ⟨14, 13, 27/2⟩, ⟨15, 14, 29/2⟩]

/-- C7 witness: the concrete 15-bar series (each true range is 1.5) has
ATR 1.5, and a concrete 3-bar series is too short and yields 0. -/
theorem atr_characterisation_witness :
    calculateATR atrWitnessBars 14 = ((trueRanges atrWitnessBars).reverse.take 14).sum / 14
      ∧ calculateATR atrWitnessBars 14 = 3/2
      ∧ calculateATR [⟨2, 1, 1⟩, ⟨3, 2, 2⟩, ⟨4, 3, 3⟩] 14 = 0 := by
  refine ⟨(atr_characterisation atrWitnessBars).2.1 (by decide),
    by norm_num [calculateATR, trueRanges, atrWitnessBars, max_def, abs],
    (atr_characterisation _).1 (by decide)⟩

end TradeSim
